import Mathlib

/-!
Verification of the original logic of `finetune.py`: the batch arithmetic
(`calculate_batches` and its two call sites in `train`), the tokenization
pipeline (`tokenize` and `generate_and_tokenize_prompt`), the dataset
cache block, the optional-acceleration flag handling, and the
resume-from-checkpoint block.

External collaborators (the HF tokenizer, the prompter, the datasets
library, the trainer) are modelled by their observable outputs: the
tokenizer by the untruncated token-id sequence it would produce for a
prompt, datasets by their sizes, the filesystem by an association list.
-/

namespace Finetune

/-- Result of the inner `tokenize` helper of `finetune.py`: the token ids,
the parallel attention mask, and the labels (a token id or the ignore
sentinel -100). -/
structure TokRes where
  input_ids : List Nat
  attention_mask : List Nat
  labels : List Int
deriving DecidableEq

/-- Shallow embedding of the inner `tokenize` function.  The HF tokenizer
call with `truncation=True, max_length=cutoff_len, padding=False` is
modelled by `raw.take cutoffLen` for `raw` the untruncated token-id
sequence of the prompt, with an all-ones attention mask.  The Python code
then reads `result["input_ids"][-1]`, appends the eos id and a mask bit of
1 when the last token is not the eos id, the length is below the cutoff
and `add_eos_token` holds, and finally copies the input ids into the
labels.  `none` models the `IndexError` the subscript `[-1]` raises on an
empty token sequence. -/
def tokenize (eosId cutoffLen : Nat) (add_eos_token : Bool) (raw : List Nat) : Option TokRes :=
  match (raw.take cutoffLen).getLast? with
  | none => none
  | some last =>
    if (last != eosId) && decide ((raw.take cutoffLen).length < cutoffLen) && add_eos_token then
      some ⟨raw.take cutoffLen ++ [eosId],
            List.replicate (raw.take cutoffLen).length 1 ++ [1],
            (raw.take cutoffLen ++ [eosId]).map Int.ofNat⟩
    else
      some ⟨raw.take cutoffLen,
            List.replicate (raw.take cutoffLen).length 1,
            (raw.take cutoffLen).map Int.ofNat⟩

/-- Whether `tokenize` appends the end-of-sequence token on this input:
the last kept token differs from the eos id, the kept length is strictly
below the cutoff, and appending is enabled. -/
def eosAppendedB (eosId cutoffLen : Nat) (add_eos_token : Bool) (raw : List Nat) : Bool :=
  match (raw.take cutoffLen).getLast? with
  | none => false
  | some last =>
    (last != eosId) && decide ((raw.take cutoffLen).length < cutoffLen) && add_eos_token

/-- Shallow embedding of `generate_and_tokenize_prompt`.  The prompter and
the tokenizer being external, the full rendering and the
instruction+input-only rendering of the data point are given by their
untruncated token sequences `fullRaw` and `userRaw`.  The full prompt is
tokenized with the inner default `add_eos_token=True`; the user prompt
with the configured flag.  When `train_on_inputs` is off, the leading
`user_prompt_len` labels (minus one when the `add_eos_token` flag is set)
are overwritten with the ignore sentinel -100. -/
def generate_and_tokenize_prompt (eosId cutoffLen : Nat)
    (train_on_inputs add_eos_token : Bool)
    (fullRaw userRaw : List Nat) : Option TokRes :=
  match tokenize eosId cutoffLen true fullRaw with
  | none => none
  | some tokenized_full_prompt =>
    if train_on_inputs then some tokenized_full_prompt
    else
      match tokenize eosId cutoffLen add_eos_token userRaw with
      | none => none
      | some tokenized_user_prompt =>
        let user_prompt_len :=
          if add_eos_token then tokenized_user_prompt.input_ids.length - 1
          else tokenized_user_prompt.input_ids.length
        some { tokenized_full_prompt with
               labels := List.replicate user_prompt_len (-100) ++
                 tokenized_full_prompt.labels.drop user_prompt_len }

/-- Shallow embedding of `calculate_batches`.  `none` models the raised
`Exception` when neither `gradient_accumulation_steps` nor
`global_batch_size` is provided (both zero). -/
def calculate_batches (global_batch_size per_device_train_batch_size gradient_accumulation_steps num_devices : Nat) : Option (Nat × Nat) :=
  if gradient_accumulation_steps ≠ 0 then
    some (gradient_accumulation_steps,
          per_device_train_batch_size * num_devices * gradient_accumulation_steps)
  else if global_batch_size ≠ 0 then
    some (max (global_batch_size / per_device_train_batch_size) 1, global_batch_size)
  else
    none

/-- The batch derivation performed by `train`: in DDP mode (world size not
equal to 1) `calculate_batches` is called with the world size passed as
the per-device batch size argument and with `num_devices=world_size`;
otherwise it is called with the per-device batch size and the default
device count of 1. -/
def trainBatchConfig (world_size per_device_train_batch_size global_batch_size gradient_accumulation_steps : Nat) : Option (Nat × Nat) :=
  if world_size ≠ 1 then
    calculate_batches global_batch_size world_size gradient_accumulation_steps world_size
  else
    calculate_batches global_batch_size per_device_train_batch_size gradient_accumulation_steps 1

/-- Outcome of the optional-acceleration setup at the top of `train`:
which monkeypatches were applied and which skip messages were printed. -/
structure AccelResult where
  applied : List String
  warnings : List String
deriving DecidableEq

/-- Shallow embedding of the acceleration-flag handling in `train`.
Availability of each optional module is a parameter; importing an
unavailable module raises `ModuleNotFoundError`.  The rope import is not
guarded by try/except; the xformers import (taken when `use_xformers` and
not `use_flash_attn`) and the flash-attention import (taken when
`use_flash_attn` and not `use_xformers`) each catch `ModuleNotFoundError`
and print a skip message. -/
def applyAccelerations (use_rope use_xformers use_flash_attn : Bool)
    (ropeAvailable xformersAvailable flashAttnAvailable : Bool) :
    Except String AccelResult :=
  if use_rope && !ropeAvailable then
    Except.error "ModuleNotFoundError: utils.monkeypatches rope dependency"
  else
    let applied0 := if use_rope then ["rope"] else []
    if use_xformers && !use_flash_attn then
      if xformersAvailable then Except.ok ⟨applied0 ++ ["xformers"], []⟩
      else Except.ok ⟨applied0, ["Xformers module not found. Skipping"]⟩
    else if use_flash_attn && !use_xformers then
      if flashAttnAvailable then Except.ok ⟨applied0 ++ ["flash_attn"], []⟩
      else Except.ok ⟨applied0, ["flash_attn module not found. Skipping"]⟩
    else
      Except.ok ⟨applied0, []⟩

/-- `true` iff the acceleration setup completed without an unhandled
error. -/
def accelOk : Except String AccelResult → Bool
  | Except.ok _ => true
  | Except.error _ => false

/-- Outcome of the resume-from-checkpoint block of `train`: whether
adapter weights were loaded into the model, what is finally passed as
`resume_from_checkpoint` to `trainer.train` (`none` models `False`), and
the messages printed. -/
structure ResumeResult where
  loadedAdapter : Bool
  resumeArg : Option String
  messages : List String
deriving DecidableEq

/-- Shallow embedding of the resume-from-checkpoint block.
`os.path.exists` is modelled by the two Booleans for the full checkpoint
file `pytorch_model.bin` and the adapter file `adapter_model.bin` under
the resume path.  A falsy `resume_from_checkpoint` (the `None` default or
an empty string) is modelled by `none` and skips the block. -/
def resumeLogic (resume_from_checkpoint : Option String) (is_finetune : Bool)
    (fullExists adapterExists : Bool) : ResumeResult :=
  match resume_from_checkpoint with
  | none => ⟨false, none, []⟩
  | some path =>
    let full_name := path ++ "/pytorch_model.bin"
    let msgs0 := ["Resuming from full checkpoint"]
    if !fullExists && !is_finetune then
      let adapter_name := path ++ "/adapter_model.bin"
      let msgs1 := msgs0 ++ ["Actually resuming from LoRA adapter model"]
      if adapterExists then
        ⟨true, none, msgs1 ++ ["Restarting from " ++ adapter_name]⟩
      else
        ⟨false, none, msgs1 ++ ["Checkpoint " ++ adapter_name ++ " not found"]⟩
    else
      if fullExists && !is_finetune then
        ⟨true, some path, msgs0 ++ ["Restarting from " ++ full_name]⟩
      else if !is_finetune then
        ⟨false, some path, msgs0 ++ ["Checkpoint " ++ full_name ++ " not found"]⟩
      else
        ⟨false, some path, msgs0⟩

/-- The stem of a path as computed by `os.path.splitext(p)[0]`: everything
before the last dot, provided that dot comes after the last slash;
otherwise the whole path. -/
def splitextStem (s : String) : String :=
  match s.data.reverse.findIdx? (fun c => c == '.' || c == '/') with
  | none => s
  | some i =>
    if s.data.reverse.get? i == some '.' then
      String.mk (s.data.take (s.data.length - i - 1))
    else s

/-- The on-disk dataset store: an association list from save path to the
number of examples of the dataset saved there. -/
abbrev Disk := List (String × Nat)

/-- `os.path.exists` over the dataset store. -/
def diskExists (d : Disk) (p : String) : Bool := (List.lookup p d).isSome

/-- `save_to_disk`: record the dataset size at the path. -/
def diskSave (d : Disk) (p : String) (n : Nat) : Disk := (p, n) :: d

/-- `load_from_disk`: look the path up; `none` models
`FileNotFoundError`. -/
def diskLoad (d : Disk) (p : String) : Option Nat := List.lookup p d

/-- Observable outcome of the dataset-preparation step: sizes of the two
splits and the number of tokenizer calls performed. -/
structure PrepOutcome where
  trainSize : Nat
  valSize : Option Nat
  tokenizerCalls : Nat
deriving DecidableEq

/-- Shallow embedding of the dataset-preparation block of `train`
(tokenize-and-split with on-disk caching).  Datasets are modelled by their
sizes; `.map(generate_and_tokenize_prompt)` preserves the size and
performs one tokenizer call per example, `.shuffle()` preserves the size,
and `train_test_split(test_size=val_set_size, seed=42)` yields sizes
`(dataTrainSize - val_set_size, val_set_size)` and requires the test size
to be smaller than the dataset.  The result pairs the disk after the step
with the outcome; `Except.error` models an uncaught Python exception, and
saves performed before the raise are kept on the disk.  In the source,
`save_to_eval` is assigned only under `use_second_set`, so it is an
`Option` here; using it while unassigned models the `NameError` Python
raises. -/
def prepStep (use_second_set : Bool) (val_set_size : Nat)
    (data_path eval_path : String) (dataTrainSize evalTestSize : Nat)
    (disk : Disk) : Disk × Except String PrepOutcome :=
  let save_to_path := "./tokenized/" ++ splitextStem data_path
  let save_to_eval : Option String :=
    if use_second_set then some ("./tokenized/" ++ splitextStem eval_path) else none
  if 0 < val_set_size then
    if !(diskExists disk save_to_path) && !(diskExists disk (save_to_path ++ "_val")) then
      if use_second_set = false then
        if val_set_size < dataTrainSize then
          let valSize := val_set_size
          let trainSize := dataTrainSize - val_set_size
          let disk1 := diskSave disk save_to_path trainSize
          match save_to_eval with
          | some pe =>
            (diskSave disk1 pe valSize,
             Except.ok ⟨trainSize, some valSize, trainSize + valSize⟩)
          | none => (disk1, Except.error "NameError: name save_to_eval is not defined")
        else (disk, Except.error "ValueError: test_size should be smaller than the dataset")
      else
        let disk1 := diskSave disk save_to_path dataTrainSize
        match save_to_eval with
        | some pe =>
          (diskSave disk1 pe evalTestSize,
           Except.ok ⟨dataTrainSize, some evalTestSize, dataTrainSize + evalTestSize⟩)
        | none => (disk1, Except.error "NameError: name save_to_eval is not defined")
    else
      match diskLoad disk save_to_path with
      | none => (disk, Except.error "FileNotFoundError: save_to_path")
      | some trainSize =>
        match save_to_eval with
        | none => (disk, Except.error "NameError: name save_to_eval is not defined")
        | some pe =>
          match diskLoad disk pe with
          | none => (disk, Except.error "FileNotFoundError: save_to_eval")
          | some valSize => (disk, Except.ok ⟨trainSize, some valSize, 0⟩)
  else
    match diskLoad disk save_to_path with
    | none =>
      (diskSave disk save_to_path dataTrainSize,
       Except.ok ⟨dataTrainSize, none, dataTrainSize⟩)
    | some n => (disk, Except.ok ⟨n, none, 0⟩)

/-- Number of leading label positions equal to the ignore sentinel
-100. -/
def leadingIgnoreCount (labels : List Int) : Nat :=
  (labels.takeWhile (fun x => x == -100)).length

/-- The masked-prefix length N as the spec words it for the loss-masking
case: the token length of the instruction+input-only rendering, reduced by
one exactly when an end-of-sequence token was appended to that
rendering. -/
def specMaskLen (eosId cutoffLen : Nat) (add_eos_token : Bool) (userRaw : List Nat) : Nat :=
  (match tokenize eosId cutoffLen add_eos_token userRaw with
   | some r => r.input_ids.length
   | none => 0) -
  (if eosAppendedB eosId cutoffLen add_eos_token userRaw then 1 else 0)

/-! ### Helper lemmas -/

theorem take_ne_nil_of_ne_nil {raw : List Nat} {c : Nat}
    (h : raw ≠ []) (hc : 1 ≤ c) : raw.take c ≠ [] := by
  intro h0
  rcases List.take_eq_nil_iff.mp h0 with h1 | h1
  · omega
  · exact h h1

theorem leadingIgnoreCount_replicate_append (n : Nat) (l : List Int) :
    leadingIgnoreCount (List.replicate n (-100) ++ l) = n + leadingIgnoreCount l := by
  induction n with
  | zero => simp
  | succ k ih =>
    rw [List.replicate_succ, List.cons_append]
    unfold leadingIgnoreCount at *
    rw [List.takeWhile_cons_of_pos (by decide)]
    simp only [List.length_cons, ih]
    omega

theorem leadingIgnoreCount_drop_ofNat (l : List Nat) (n : Nat) :
    leadingIgnoreCount ((l.map Int.ofNat).drop n) = 0 := by
  rw [← List.map_drop]
  cases h : l.drop n with
  | nil => simp [leadingIgnoreCount]
  | cons a t =>
    unfold leadingIgnoreCount
    rw [List.map_cons, List.takeWhile_cons_of_neg]
    · simp
    · intro hq
      simp only [beq_iff_eq] at hq
      have hge : (0 : Int) ≤ Int.ofNat a := Int.ofNat_nonneg a
      rw [hq] at hge
      norm_num at hge

theorem getLast?_replicate_one {n : Nat} (h : 1 ≤ n) :
    (List.replicate n (1 : Nat)).getLast? = some 1 := by
  cases n with
  | zero => omega
  | succ k =>
    rw [List.replicate_succ']
    exact List.getLast?_concat _

/-- Characterization of a successful `tokenize` call: on a nonempty raw
tokenization with a positive cutoff, it returns the truncated ids with the
eos id appended exactly when `eosAppendedB` holds, an all-ones mask of the
same length, labels copying the ids, and the length bounds used by the
claims. -/
theorem tokenize_spec (eosId c : Nat) (a : Bool) (raw : List Nat)
    (h : raw ≠ []) (hc : 1 ≤ c) :
    ∃ r, tokenize eosId c a raw = some r ∧
      r.labels = r.input_ids.map Int.ofNat ∧
      r.attention_mask = List.replicate r.input_ids.length 1 ∧
      r.input_ids = (if eosAppendedB eosId c a raw then raw.take c ++ [eosId]
                     else raw.take c) ∧
      r.input_ids.length ≤ c ∧
      (raw.take c).length ≤ r.input_ids.length ∧
      r.input_ids.length ≤ (raw.take c).length + (if a then 1 else 0) := by
  have htake : raw.take c ≠ [] := take_ne_nil_of_ne_nil h hc
  have htlen : 1 ≤ (raw.take c).length := List.length_pos.mpr htake
  have htle : (raw.take c).length ≤ c := by
    rw [List.length_take]; omega
  obtain ⟨last, hl⟩ : ∃ l, (raw.take c).getLast? = some l := by
    cases hx : (raw.take c).getLast? with
    | none => exact absurd (List.getLast?_eq_none_iff.mp hx) htake
    | some l => exact ⟨l, rfl⟩
  have happ : eosAppendedB eosId c a raw
      = ((last != eosId) && decide ((raw.take c).length < c) && a) := by
    unfold eosAppendedB
    rw [hl]
  by_cases hb : ((last != eosId) && decide ((raw.take c).length < c) && a) = true
  · have hparts : (last ≠ eosId ∧ (raw.take c).length < c) ∧ a = true := by
      simpa [Bool.and_eq_true, decide_eq_true_eq] using hb
    refine ⟨⟨raw.take c ++ [eosId], List.replicate (raw.take c).length 1 ++ [1],
            (raw.take c ++ [eosId]).map Int.ofNat⟩, ?_, rfl, ?_, ?_, ?_, ?_, ?_⟩
    · unfold tokenize
      rw [hl]
      dsimp only
      rw [if_pos hb]
    · show List.replicate (raw.take c).length 1 ++ [1]
        = List.replicate (raw.take c ++ [eosId]).length 1
      rw [List.length_append, List.length_singleton, List.replicate_succ']
    · rw [happ, if_pos hb]
    · simp only [List.length_append, List.length_singleton]
      omega
    · simp [List.length_append]
    · simp [hparts.2]
  · refine ⟨⟨raw.take c, List.replicate (raw.take c).length 1,
            (raw.take c).map Int.ofNat⟩, ?_, rfl, rfl, ?_, htle, Nat.le_refl _, ?_⟩
    · unfold tokenize
      rw [hl]
      dsimp only
      rw [if_neg hb]
    · rw [happ, if_neg hb]
    · cases a <;> simp

/-- Reduction of `generate_and_tokenize_prompt` in the loss-masking
configuration, given the two `tokenize` results. -/
theorem gadp_eq_of_tokenize (eosId c : Nat) (aef : Bool)
    (fullRaw userRaw : List Nat) (f u : TokRes)
    (hf : tokenize eosId c true fullRaw = some f)
    (hu : tokenize eosId c aef userRaw = some u) :
    generate_and_tokenize_prompt eosId c false aef fullRaw userRaw =
      some { f with labels :=
        List.replicate (if aef then u.input_ids.length - 1 else u.input_ids.length) (-100) ++
          f.labels.drop (if aef then u.input_ids.length - 1 else u.input_ids.length) } := by
  unfold generate_and_tokenize_prompt
  rw [hf, hu]
  rfl

/-- Reduction of `generate_and_tokenize_prompt` in the train-on-inputs
configuration. -/
theorem gadp_eq_of_tokenize_toi (eosId c : Nat) (aef : Bool)
    (fullRaw userRaw : List Nat) (f : TokRes)
    (hf : tokenize eosId c true fullRaw = some f) :
    generate_and_tokenize_prompt eosId c true aef fullRaw userRaw = some f := by
  unfold generate_and_tokenize_prompt
  rw [hf]
  rfl

/-! ### Claim theorems -/

/-- Claim C1, counterexample: with per-device batch size 4, device count
1, accumulation steps 0 and global batch size 6 (exactly one of the two
nonzero), `calculate_batches` returns the pair (1, 6), and 6 is not equal
to 4 × 1 × 1, so the returned pair violates the claimed invariant
global = per_device × devices × accumulation. -/
theorem calc_batches_global_invariant_cex :
    calculate_batches 6 4 0 1 = some (1, 6) ∧ (6 : Nat) ≠ 4 * 1 * 1 := by
  constructor
  · rfl
  · decide

/-- Claim C1, amended: for per-device batch size p ≥ 1 and device count
d ≥ 1, when accumulation_steps is nonzero `calculate_batches` returns the
pair (accumulation, p × d × accumulation), so the invariant holds; when
only global_batch_size g is nonzero it returns accumulation =
max(g / p, 1) with the global size unchanged at g, so the invariant holds
only when g happens to equal p × d × max(g / p, 1). -/
theorem calc_batches_amended (g p a d : Nat) (hp : 1 ≤ p) (hd : 1 ≤ d) :
    (a ≠ 0 → calculate_batches g p a d = some (a, p * d * a)) ∧
    (a = 0 → g ≠ 0 → calculate_batches g p a d = some (max (g / p) 1, g)) := by
  constructor
  · intro ha
    unfold calculate_batches
    simp [ha]
  · intro ha hg
    unfold calculate_batches
    simp [ha, hg]

theorem calc_batches_amended_witness :
    (1 : Nat) ≤ 2 ∧ calculate_batches 0 2 3 2 = some (3, 2 * 2 * 3) :=
  ⟨by decide, (calc_batches_amended 0 2 3 2 (by decide) (by decide)).1 (by decide)⟩

/-- Claim C9: for every per-device batch size p ≥ 1, `calculate_batches`
raises (returns `none`) exactly when both global_batch_size and
gradient_accumulation_steps are zero. -/
theorem calc_batches_raises_iff (g p a d : Nat) (hp : 1 ≤ p) :
    calculate_batches g p a d = none ↔ (g = 0 ∧ a = 0) := by
  unfold calculate_batches
  by_cases ha : a = 0 <;> by_cases hg : g = 0 <;> simp [ha, hg]

theorem calc_batches_raises_iff_witness :
    (1 : Nat) ≤ 4 ∧ calculate_batches 0 4 0 1 = none :=
  ⟨by decide, (calc_batches_raises_iff 0 4 0 1 (by decide)).mpr (by decide)⟩

/-- Claim C4: in distributed mode `train` calls `calculate_batches` with
the world size in place of the per-device batch size, so with per-device
batch size 4, world size 2, accumulation steps 3 and no requested global
size, the derived global batch size is 2 × 2 × 3 = 12, which differs from
the data-model invariant value 4 × 2 × 3 = 24. -/
theorem ddp_batch_invariant_bug :
    trainBatchConfig 2 4 0 3 = some (3, 12) ∧ (12 : Nat) ≠ 4 * 2 * 3 := by
  constructor
  · rfl
  · decide

/-- Claim C3: in the default split-from-train configuration
(use_second_set = False, val_set_size > 0) against a fresh cache, the
dataset-preparation step raises `NameError` (the variable `save_to_eval`
is assigned only when use_second_set is True) after saving only the train
split, so the first run never completes; a subsequent run against the
partially written cache path raises the same `NameError` from the
cache-load branch. -/
theorem dataset_cache_name_error :
    (prepStep false 1 "data.json" "eval.json" 3 0 []).2 =
      Except.error "NameError: name save_to_eval is not defined" ∧
    (prepStep false 1 "data.json" "eval.json" 3 0
        (prepStep false 1 "data.json" "eval.json" 3 0 []).1).2 =
      Except.error "NameError: name save_to_eval is not defined" := by
  constructor
  · rfl
  · rfl

/-- Claim C6, counterexample: with use_rope requested and the rope module
unavailable (the other two modules available), the acceleration setup
ends in an unhandled `ModuleNotFoundError` instead of a warning — the
rope import is not guarded by try/except. -/
theorem accel_missing_cex :
    accelOk (applyAccelerations true false false false true true) = false := by
  rfl

/-- Claim C6, amended: provided the rope module is available whenever
use_rope is set, a missing optional module never raises: the xformers
branch (use_xformers without use_flash_attn) and the flash-attention
branch (use_flash_attn without use_xformers) each report the missing
module with a skip message and apply nothing for it; the unguarded rope
import, by contrast, raises when its module is missing. -/
theorem accel_missing_amended (ur ux uf ra xa fa : Bool)
    (h : ur = true → ra = true) :
    accelOk (applyAccelerations ur ux uf ra xa fa) = true ∧
    (ux = true → uf = false → xa = false →
      applyAccelerations ur ux uf ra xa fa =
        Except.ok ⟨if ur then ["rope"] else [],
                   ["Xformers module not found. Skipping"]⟩) ∧
    (uf = true → ux = false → fa = false →
      applyAccelerations ur ux uf ra xa fa =
        Except.ok ⟨if ur then ["rope"] else [],
                   ["flash_attn module not found. Skipping"]⟩) := by
  cases ur <;> cases ux <;> cases uf <;> cases ra <;> cases xa <;> cases fa <;>
    simp_all [applyAccelerations, accelOk]

theorem accel_missing_amended_witness :
    (false = true → true = true) ∧
    accelOk (applyAccelerations false true false true false true) = true :=
  ⟨by decide, (accel_missing_amended false true false true false true (by decide)).1⟩

/-- Claim C7, counterexample: with is_finetune set and a resume path at
which neither checkpoint form exists, `train` prints no missing-checkpoint
warning and still passes the path to `trainer.train`, so the training loop
is asked to restore state instead of training from scratch. -/
theorem resume_missing_cex :
    (resumeLogic (some "ckpt") true false false).resumeArg = some "ckpt" ∧
    (resumeLogic (some "ckpt") true false false).messages =
      ["Resuming from full checkpoint"] := by
  constructor
  · rfl
  · rfl

/-- Claim C7, amended: in adapter mode (is_finetune = False) the resume
block tries the full checkpoint `pytorch_model.bin` first, then the
adapter `adapter_model.bin`; finding the full checkpoint restores both the
adapter weights and (via the kept resume argument) the training loop's
own state, finding only the adapter restores just the adapter weights with
the resume argument cleared, and finding neither prints a not-found
warning and clears the resume argument so training starts from scratch. -/
theorem resume_logic_amended (p : String) (fe ae : Bool) :
    resumeLogic (some p) false fe ae =
      (if fe then
        ⟨true, some p,
         ["Resuming from full checkpoint",
          "Restarting from " ++ (p ++ "/pytorch_model.bin")]⟩
      else if ae then
        ⟨true, none,
         ["Resuming from full checkpoint",
          "Actually resuming from LoRA adapter model",
          "Restarting from " ++ (p ++ "/adapter_model.bin")]⟩
      else
        ⟨false, none,
         ["Resuming from full checkpoint",
          "Actually resuming from LoRA adapter model",
          "Checkpoint " ++ (p ++ "/adapter_model.bin") ++ " not found"]⟩ :
        ResumeResult) := by
  cases fe <;> cases ae <;> rfl

/-- Claim C2, counterexample: with eos id 0, cutoff 2, add_eos_token on
and loss masking on, a full rendering tokenizing to [3, 4, 5] and an
instruction+input-only rendering tokenizing to [3, 4]: the user rendering
is truncated to the cutoff, so no end-of-sequence token is appended to it
and the claimed mask length is its full token length 2; but the code
subtracts one whenever the add_eos_token flag is set, masking only 1
leading label. -/
theorem labels_mask_spec_cex :
    generate_and_tokenize_prompt 0 2 false true [3, 4, 5] [3, 4] =
      some ⟨[3, 4], [1, 1], [-100, 4]⟩ ∧
    leadingIgnoreCount [-100, 4] ≠ specMaskLen 0 2 true [3, 4] := by
  constructor
  · rfl
  · decide

/-- Claim C2, amended: with loss masking on, the label sequence has
exactly N leading ignore-sentinel positions where N is the token length of
the instruction+input-only rendering reduced by one exactly when the
add_eos_token flag is enabled (whether or not a token was actually
appended), and every label position from N on is unchanged from the full
prompt's labels. -/
theorem labels_mask_amended (eosId c : Nat) (aef : Bool)
    (fullRaw userRaw : List Nat)
    (hu : userRaw ≠ []) (hf : fullRaw ≠ []) (hc : 1 ≤ c) :
    ∃ r u f, generate_and_tokenize_prompt eosId c false aef fullRaw userRaw = some r ∧
      tokenize eosId c aef userRaw = some u ∧
      tokenize eosId c true fullRaw = some f ∧
      r.input_ids = f.input_ids ∧
      leadingIgnoreCount r.labels = u.input_ids.length - (if aef then 1 else 0) ∧
      r.labels.drop (u.input_ids.length - (if aef then 1 else 0)) =
        f.labels.drop (u.input_ids.length - (if aef then 1 else 0)) := by
  obtain ⟨f, hfeq, hflab, hfmask, hfids, hfle, hftake, hfbound⟩ :=
    tokenize_spec eosId c true fullRaw hf hc
  obtain ⟨u, hueq, hulab, humask, huids, hule, hutake, hubound⟩ :=
    tokenize_spec eosId c aef userRaw hu hc
  have hmain := gadp_eq_of_tokenize eosId c aef fullRaw userRaw f u hfeq hueq
  have hite : (if aef then u.input_ids.length - 1 else u.input_ids.length)
      = u.input_ids.length - (if aef then 1 else 0) := by
    cases aef <;> simp
  rw [hite] at hmain
  refine ⟨_, u, f, hmain, hueq, hfeq, rfl, ?_, ?_⟩
  · show leadingIgnoreCount
        (List.replicate (u.input_ids.length - (if aef then 1 else 0)) (-100) ++
          f.labels.drop (u.input_ids.length - (if aef then 1 else 0)))
      = u.input_ids.length - (if aef then 1 else 0)
    rw [leadingIgnoreCount_replicate_append, hflab, leadingIgnoreCount_drop_ofNat]
    omega
  · show (List.replicate (u.input_ids.length - (if aef then 1 else 0)) (-100) ++
          f.labels.drop (u.input_ids.length - (if aef then 1 else 0))).drop
        (u.input_ids.length - (if aef then 1 else 0)) =
      f.labels.drop (u.input_ids.length - (if aef then 1 else 0))
    exact List.drop_left' (by simp)

theorem labels_mask_amended_witness :
    ([3] : List Nat) ≠ [] ∧
    (∃ r u f, generate_and_tokenize_prompt 0 4 false true [3, 4] [3] = some r ∧
      tokenize 0 4 true [3] = some u ∧
      tokenize 0 4 true [3, 4] = some f ∧
      r.input_ids = f.input_ids ∧
      leadingIgnoreCount r.labels = u.input_ids.length - (if true then 1 else 0) ∧
      r.labels.drop (u.input_ids.length - (if true then 1 else 0)) =
        f.labels.drop (u.input_ids.length - (if true then 1 else 0))) :=
  ⟨by decide, labels_mask_amended 0 4 true [3, 4] [3] (by decide) (by decide) (by decide)⟩

/-- Claim C5: for every data point (with a nonempty user-rendering
tokenization no longer than the full-rendering tokenization, a positive
cutoff), the Tokenized Example produced by the pipeline has token-id,
attention-mask and label sequences of equal length, bounded by the cutoff,
in both the train-on-inputs and the loss-masking configurations. -/
theorem tokenized_lengths_invariant (eosId c : Nat) (toi aef : Bool)
    (fullRaw userRaw : List Nat)
    (hu : userRaw ≠ []) (hc : 1 ≤ c) (hlen : userRaw.length ≤ fullRaw.length) :
    ∃ r, generate_and_tokenize_prompt eosId c toi aef fullRaw userRaw = some r ∧
      r.attention_mask.length = r.input_ids.length ∧
      r.labels.length = r.input_ids.length ∧
      r.input_ids.length ≤ c := by
  have hf : fullRaw ≠ [] := by
    intro h0
    rw [h0, List.length_nil, Nat.le_zero, List.length_eq_zero] at hlen
    exact hu hlen
  obtain ⟨f, hfeq, hflab, hfmask, hfids, hfle, hftake, hfbound⟩ :=
    tokenize_spec eosId c true fullRaw hf hc
  cases toi with
  | true =>
    refine ⟨f, gadp_eq_of_tokenize_toi eosId c aef fullRaw userRaw f hfeq, ?_, ?_, hfle⟩
    · rw [hfmask, List.length_replicate]
    · rw [hflab, List.length_map]
  | false =>
    obtain ⟨u, hueq, hulab, humask, huids, hule, hutake, hubound⟩ :=
      tokenize_spec eosId c aef userRaw hu hc
    have hmain := gadp_eq_of_tokenize eosId c aef fullRaw userRaw f u hfeq hueq
    set n := if aef then u.input_ids.length - 1 else u.input_ids.length with hn
    have hfl : f.labels.length = f.input_ids.length := by
      rw [hflab, List.length_map]
    have hnle : n ≤ f.labels.length := by
      have h1 : (userRaw.take c).length = min c userRaw.length := List.length_take c userRaw
      have h2 : (fullRaw.take c).length = min c fullRaw.length := List.length_take c fullRaw
      have h3 : n ≤ (userRaw.take c).length := by
        cases aef with
        | true =>
          have hb : u.input_ids.length ≤ (userRaw.take c).length + 1 := by
            simpa using hubound
          have hn' : n = u.input_ids.length - 1 := by
            simp [hn]
          omega
        | false =>
          have hb : u.input_ids.length ≤ (userRaw.take c).length := by
            simpa using hubound
          have hn' : n = u.input_ids.length := by
            simp [hn]
          omega
      omega
    refine ⟨_, hmain, ?_, ?_, hfle⟩
    · show f.attention_mask.length = f.input_ids.length
      rw [hfmask, List.length_replicate]
    · show (List.replicate n (-100) ++ f.labels.drop n).length = f.input_ids.length
      rw [List.length_append, List.length_replicate, List.length_drop]
      omega

theorem tokenized_lengths_invariant_witness :
    ([1] : List Nat) ≠ [] ∧
    (∃ r, generate_and_tokenize_prompt 0 4 false true [1, 2] [1] = some r ∧
      r.attention_mask.length = r.input_ids.length ∧
      r.labels.length = r.input_ids.length ∧
      r.input_ids.length ≤ 4) :=
  ⟨by decide,
   tokenized_lengths_invariant 0 4 false true [1, 2] [1] (by decide) (by decide) (by decide)⟩

/-- Claim C8: for every prompt whose (nonempty) tokenization is strictly
shorter than the cutoff, tokenizing with end-of-sequence appending enabled
yields a token sequence whose last element is the eos id and an attention
mask whose final bit is 1. -/
theorem tokenize_eos_final (eosId c : Nat) (raw : List Nat)
    (h : raw ≠ []) (hlt : raw.length < c) :
    ∃ r, tokenize eosId c true raw = some r ∧
      r.input_ids.getLast? = some eosId ∧
      r.attention_mask.getLast? = some 1 := by
  have hc : 1 ≤ c := by
    have := List.length_pos.mpr h
    omega
  obtain ⟨r, hreq, hrlab, hrmask, hrids, hrle, hrtake, hrbound⟩ :=
    tokenize_spec eosId c true raw h hc
  have htake : raw.take c = raw := List.take_of_length_le (by omega)
  have hmask1 : 1 ≤ r.input_ids.length := by
    have h1 : 1 ≤ (raw.take c).length := by
      rw [htake]
      exact List.length_pos.mpr h
    omega
  refine ⟨r, hreq, ?_, ?_⟩
  · by_cases happ : eosAppendedB eosId c true raw = true
    · rw [hrids, if_pos happ, List.getLast?_concat]
    · have hbf : eosAppendedB eosId c true raw = false := by
        revert happ
        cases eosAppendedB eosId c true raw <;> simp
      obtain ⟨last, hl⟩ : ∃ l, (raw.take c).getLast? = some l := by
        cases hx : (raw.take c).getLast? with
        | none =>
          rw [List.getLast?_eq_none_iff, htake] at hx
          exact absurd hx h
        | some l => exact ⟨l, rfl⟩
      have happ2 : eosAppendedB eosId c true raw
          = ((last != eosId) && decide ((raw.take c).length < c) && true) := by
        unfold eosAppendedB
        rw [hl]
      rw [happ2] at hbf
      have hlt2 : (raw.take c).length < c := by
        rw [htake]
        exact hlt
      have hlast_eq : last = eosId := by
        by_contra hne
        have htrue : ((last != eosId) && decide ((raw.take c).length < c) && true) = true := by
          simp [hne, hlt2, hlt]
        rw [htrue] at hbf
        exact Bool.noConfusion hbf
      rw [hrids, if_neg happ, hl, hlast_eq]
  · rw [hrmask]
    exact getLast?_replicate_one hmask1

theorem tokenize_eos_final_witness :
    ([5] : List Nat) ≠ [] ∧
    (∃ r, tokenize 7 3 true [5] = some r ∧
      r.input_ids.getLast? = some 7 ∧
      r.attention_mask.getLast? = some 1) :=
  ⟨by decide, tokenize_eos_final 7 3 [5] (by decide) (by decide)⟩

/-- Claim C10: `tokenize` reads the last element of the token-id list
before any length check, so an empty tokenization makes it fail (modelled
by `none`), while any nonempty tokenization with a positive cutoff makes
it succeed — it is total only under the precondition that the tokenizer
returns a nonempty token sequence. -/
theorem tokenize_empty_fails (eosId c : Nat) (a : Bool) (raw : List Nat) :
    tokenize eosId c a [] = none ∧
    (raw ≠ [] → 1 ≤ c → (tokenize eosId c a raw).isSome = true) := by
  constructor
  · unfold tokenize
    simp
  · intro h hc
    obtain ⟨r, hreq, -, -, -, -, -, -⟩ := tokenize_spec eosId c a raw h hc
    rw [hreq]
    rfl

theorem tokenize_empty_fails_witness :
    tokenize 0 4 true [] = none ∧
    ([1] : List Nat) ≠ [] ∧
    (tokenize 0 4 true [1]).isSome = true :=
  ⟨(tokenize_empty_fails 0 4 true [1]).1, by decide,
   (tokenize_empty_fails 0 4 true [1]).2 (by decide) (by decide)⟩

end Finetune
